import Mathlib

/-!
Verification development for the bulk identity-remapping transformer
(`packages/transformer/src`): a shallow embedding of the remap tables, the
SQL remap expression, the two-pass orchestrator loops, the codespec import
loop, and the clone context, together with theorems settling the frozen
claims about them.
-/

set_option maxHeartbeats 1000000

/-! ## CompactRemapTable

Modelled from the spec: the class `CompactRemapTable` is imported by
`JsPolymorphicInserter.ts` from `./CompactRemapTable`, whose source file is
not part of the provided sources.  Spec section 4.2 describes it: storage is
a list of runs `(from, to, length)`; `remap(src,tgt)` extends the last run
when `src = lastRun.from + lastRun.length` and `tgt = lastRun.to +
lastRun.length`, and otherwise starts a new run; `get(src)` finds the run
containing `src` and returns `to + (src - from)`; `runs()` yields the runs
in order.  All identifiers are 64-bit, far from overflow in the scenarios
considered, so we use `Nat`.
-/

/-- One run of a compact remap table: sources `src, src+1, ..., src+len-1`
map to `tgt, tgt+1, ..., tgt+len-1`. -/
structure RemapRun where
  src : Nat
  tgt : Nat
  len : Nat
deriving DecidableEq, Repr

/-- Whether a run contains the source id `x` (the `BETWEEN SourceId AND
SourceId + Length - 1` predicate). -/
def RemapRun.contains (r : RemapRun) (x : Nat) : Bool :=
  r.src ≤ x ∧ x ≤ r.src + r.len - 1

/-- Modelled from the spec: a compact remap table is a list of runs kept in
insertion order. -/
structure CompactRemapTable where
  runs : List RemapRun
deriving DecidableEq, Repr

/-- The empty table. -/
def CompactRemapTable.empty : CompactRemapTable := ⟨[]⟩

/-- Modelled from the spec: `remap(src, tgt)` extends the last run when the
pair continues it and otherwise appends a fresh run of length 1. -/
def CompactRemapTable.remap (t : CompactRemapTable) (src tgt : Nat) : CompactRemapTable :=
  match t.runs.getLast? with
  | none => ⟨[⟨src, tgt, 1⟩]⟩
  | some r =>
    if src = r.src + r.len ∧ tgt = r.tgt + r.len then
      ⟨t.runs.dropLast ++ [⟨r.src, r.tgt, r.len + 1⟩]⟩
    else
      ⟨t.runs ++ [⟨src, tgt, 1⟩]⟩

/-- Modelled from the spec: `get(src)` looks up the run containing `src` and
returns `to + (src - from)`; `none` when no run contains it. -/
def CompactRemapTable.get (t : CompactRemapTable) (x : Nat) : Option Nat :=
  (t.runs.find? (fun r => r.contains x)).map (fun r => r.tgt + (x - r.src))

/-- A source id is covered when some run of the table contains it. -/
def CompactRemapTable.covered (t : CompactRemapTable) (x : Nat) : Bool :=
  t.runs.any (fun r => r.contains x)

namespace CompactRemapTable

/-- Splitting a lookup across an appended run list. -/
theorem get_append (rs₁ rs₂ : List RemapRun) (x : Nat) :
    get ⟨rs₁ ++ rs₂⟩ x = ((get ⟨rs₁⟩ x).orElse (fun _ => get ⟨rs₂⟩ x)) := by
  simp only [get, List.find?_append]
  cases h : rs₁.find? (fun r => r.contains x) <;> simp [Option.orElse]

/-- A table not covering `x` has no run containing `x`. -/
theorem not_covered_iff (t : CompactRemapTable) (x : Nat) :
    ¬ t.covered x = true ↔ ∀ r ∈ t.runs, ¬ r.contains x = true := by
  simp [covered, List.any_eq_true]

theorem get_single (r : RemapRun) (x : Nat) :
    get ⟨[r]⟩ x = if r.contains x then some (r.tgt + (x - r.src)) else none := by
  simp only [get, List.find?]
  cases h : r.contains x <;> simp [h]

theorem covered_append (rs₁ rs₂ : List RemapRun) (x : Nat) :
    covered ⟨rs₁ ++ rs₂⟩ x = (covered ⟨rs₁⟩ x || covered ⟨rs₂⟩ x) := by
  simp [covered, List.any_append]

/-- `remap` never loses an existing mapping: every source id already sent to
some target id keeps that image. -/
theorem get_remap_preserve (t : CompactRemapTable) (s v x w : Nat)
    (h : t.get x = some w) : (t.remap s v).get x = some w := by
  rcases List.eq_nil_or_concat t.runs with hnil | ⟨rs, r, hr⟩
  · simp [get, hnil] at h
  · obtain ⟨runs⟩ := t
    simp only at hr
    rw [List.concat_eq_append] at hr
    subst hr
    rw [get_append] at h
    simp only [remap, List.getLast?_concat, List.dropLast_concat]
    split
    · -- extend the last run
      rename_i hcond
      rw [get_append]
      rw [get_single] at h
      cases hrs : get ⟨rs⟩ x with
      | some w' =>
        rw [hrs] at h
        simpa [Option.orElse, hrs] using h
      | none =>
        rw [hrs] at h
        simp only [Option.orElse, Option.none_orElse] at h
        split at h
        · rename_i hc
          simp only [RemapRun.contains, decide_eq_true_eq] at hc
          have hc' : (RemapRun.mk r.src r.tgt (r.len + 1)).contains x = true := by
            simp only [RemapRun.contains, decide_eq_true_eq]
            omega
          simp [Option.orElse, hrs, get_single, hc', ← h]
        · exact absurd h (by simp)
    · -- append a fresh run
      rw [get_append, get_append, h]
      rfl

/-- After `remap s v` on a table that did not yet cover `s`, looking up `s`
yields `v`. -/
theorem get_remap_self (t : CompactRemapTable) (s v : Nat)
    (h : ¬ t.covered s = true) : (t.remap s v).get s = some v := by
  rcases List.eq_nil_or_concat t.runs with hnil | ⟨rs, r, hr⟩
  · obtain ⟨runs⟩ := t
    simp only at hnil
    subst hnil
    simp [remap, get_single, RemapRun.contains]
  · obtain ⟨runs⟩ := t
    simp only at hr
    rw [List.concat_eq_append] at hr
    subst hr
    rw [not_covered_iff] at h
    have hnone : ∀ (l : List RemapRun), (∀ r' ∈ l, ¬ r'.contains s = true) →
        get ⟨l⟩ s = none := by
      intro l hl
      simp [get, List.find?_eq_none.mpr (by intro a ha; simpa using hl a ha)]
    simp only [remap, List.getLast?_concat, List.dropLast_concat]
    split
    · rename_i hcond
      obtain ⟨hs, hv⟩ := hcond
      rw [get_append, hnone rs (fun r' h' => h r' (by simp [h']))]
      have hc : (RemapRun.mk r.src r.tgt (r.len + 1)).contains s = true := by
        simp only [RemapRun.contains, decide_eq_true_eq]
        omega
      simp [Option.orElse, get_single, hc]
      omega
    · rw [get_append, hnone (rs ++ [r]) (fun r' h' => h r' h')]
      have hc : (RemapRun.mk s v 1).contains s = true := by
        simp only [RemapRun.contains, decide_eq_true_eq]
        omega
      simp [Option.orElse, get_single, hc]

/-- `remap s v` extends the covered set by exactly `s`. -/
theorem covered_remap (t : CompactRemapTable) (s v x : Nat) :
    (t.remap s v).covered x = true ↔ t.covered x = true ∨ x = s := by
  rcases List.eq_nil_or_concat t.runs with hnil | ⟨rs, r, hr⟩
  · obtain ⟨runs⟩ := t
    simp only at hnil
    subst hnil
    simp [remap, covered, RemapRun.contains]
    omega
  · obtain ⟨runs⟩ := t
    simp only at hr
    rw [List.concat_eq_append] at hr
    subst hr
    simp only [remap, List.getLast?_concat, List.dropLast_concat]
    split
    · rename_i hcond
      obtain ⟨hs, hv⟩ := hcond
      rw [covered_append, covered_append]
      subst hs
      simp only [Bool.or_eq_true, covered, List.any_eq_true, List.mem_singleton,
        exists_eq_left, RemapRun.contains, decide_eq_true_eq]
      constructor
      · rintro (hl | hr')
        · exact Or.inl (Or.inl hl)
        · rcases Nat.lt_or_ge x (r.src + r.len) with hx | hx
          · exact Or.inl (Or.inr (by omega))
          · exact Or.inr (by omega)
      · rintro ((hl | hr') | hx)
        · exact Or.inl hl
        · exact Or.inr (by omega)
        · exact Or.inr (by omega)
    · rw [covered_append]
      simp only [Bool.or_eq_true, covered, List.any_eq_true, List.mem_singleton,
        exists_eq_left, RemapRun.contains, decide_eq_true_eq]
      constructor
      · rintro (hl | hr')
        · exact Or.inl (by simpa [covered, List.any_eq_true] using hl)
        · exact Or.inr (by omega)
      · rintro (hl | hx)
        · exact Or.inl (by simpa [covered, List.any_eq_true] using hl)
        · exact Or.inr (by omega)

end CompactRemapTable

/-! ## Orchestrator state: the four remap tables

`rawEmulatedPolymorphicInsertTransform` (JsPolymorphicInserter.ts) creates
four `CompactRemapTable`s (element, aspect, codespec, font), remaps `0 → 0`
in each while creating the temp SQL tables, replays the already exported
font remaps into the font table, and then installs the reserved element
identities `0x1 → 0x1`, `0xe → 0xe`, `0x10 → 0x10` (lines 666-698).
-/

structure RemapTables where
  element : CompactRemapTable
  aspect : CompactRemapTable
  codespec : CompactRemapTable
  font : CompactRemapTable
deriving DecidableEq, Repr

inductive RemapKind
  | element
  | aspect
  | codespec
  | font
deriving DecidableEq, Repr

/-- The `always remap 0 to 0` base installed for each of the four tables. -/
def baseRemapTable : CompactRemapTable := CompactRemapTable.empty.remap 0 0

/-- The four tables at the end of the initialization region of
`rawEmulatedPolymorphicInsertTransform` (after line 698), given the font
remaps recorded while exporting fonts. -/
def initRemapTables (fontRemaps : List (Nat × Nat)) : RemapTables :=
  { element := ((baseRemapTable.remap 0x1 0x1).remap 0xe 0xe).remap 0x10 0x10
    aspect := baseRemapTable
    codespec := baseRemapTable
    font := fontRemaps.foldl (fun t sv => t.remap sv.1 sv.2) baseRemapTable }

/-- A later `remapTables.<kind>.remap(src, tgt)` call of the transform. -/
def applyRemapOp (ts : RemapTables) (op : RemapKind × Nat × Nat) : RemapTables :=
  match op.1 with
  | .element => { ts with element := ts.element.remap op.2.1 op.2.2 }
  | .aspect => { ts with aspect := ts.aspect.remap op.2.1 op.2.2 }
  | .codespec => { ts with codespec := ts.codespec.remap op.2.1 op.2.2 }
  | .font => { ts with font := ts.font.remap op.2.1 op.2.2 }

theorem foldl_remap_preserve (l : List (Nat × Nat)) :
    ∀ (t : CompactRemapTable) (x w : Nat), t.get x = some w →
      (l.foldl (fun t sv => t.remap sv.1 sv.2) t).get x = some w := by
  induction l with
  | nil => intro t x w h; simpa using h
  | cons p rest ih =>
    intro t x w h
    exact ih _ _ _ (CompactRemapTable.get_remap_preserve _ _ _ _ _ h)

/-- The seven identity facts claim C3 tracks, as a predicate on a table
quadruple. -/
def IdentityRemapsHold (ts : RemapTables) : Prop :=
  ts.element.get 0 = some 0 ∧ ts.element.get 0x1 = some 0x1 ∧
  ts.element.get 0xe = some 0xe ∧ ts.element.get 0x10 = some 0x10 ∧
  ts.aspect.get 0 = some 0 ∧ ts.codespec.get 0 = some 0 ∧ ts.font.get 0 = some 0

theorem identityRemapsHold_applyRemapOp (ts : RemapTables)
    (op : RemapKind × Nat × Nat) (h : IdentityRemapsHold ts) :
    IdentityRemapsHold (applyRemapOp ts op) := by
  obtain ⟨h1, h2, h3, h4, h5, h6, h7⟩ := h
  obtain ⟨kind, s, v⟩ := op
  cases kind <;>
    exact ⟨by first | exact CompactRemapTable.get_remap_preserve _ _ _ _ _ h1 | exact h1,
      by first | exact CompactRemapTable.get_remap_preserve _ _ _ _ _ h2 | exact h2,
      by first | exact CompactRemapTable.get_remap_preserve _ _ _ _ _ h3 | exact h3,
      by first | exact CompactRemapTable.get_remap_preserve _ _ _ _ _ h4 | exact h4,
      by first | exact CompactRemapTable.get_remap_preserve _ _ _ _ _ h5 | exact h5,
      by first | exact CompactRemapTable.get_remap_preserve _ _ _ _ _ h6 | exact h6,
      by first | exact CompactRemapTable.get_remap_preserve _ _ _ _ _ h7 | exact h7⟩

/-- C3: every remap table (element, aspect, codespec, font) maps the invalid
id `0` to itself, and the element remap table maps `0x1`, `0xe` and `0x10`
to themselves; these identity entries are installed by the initialization
region of `rawEmulatedPolymorphicInsertTransform` and survive every
subsequent `remap` call of the transform, for any font remaps recorded
during font export. -/
theorem identityRemapsHold_foldl (ops : List (RemapKind × Nat × Nat)) :
    ∀ ts, IdentityRemapsHold ts → IdentityRemapsHold (ops.foldl applyRemapOp ts) := by
  induction ops with
  | nil => intro ts h; simpa using h
  | cons op rest ih =>
    intro ts h
    exact ih _ (identityRemapsHold_applyRemapOp ts op h)

theorem identity_remaps_installed_and_preserved
    (fontRemaps : List (Nat × Nat)) (ops : List (RemapKind × Nat × Nat)) :
    IdentityRemapsHold (ops.foldl applyRemapOp (initRemapTables fontRemaps)) := by
  have hinit : IdentityRemapsHold (initRemapTables fontRemaps) := by
    refine ⟨?_, ?_, ?_, ?_, ?_, ?_, ?_⟩
    · show (((baseRemapTable.remap 0x1 0x1).remap 0xe 0xe).remap 0x10 0x10).get 0 = some 0
      decide
    · show (((baseRemapTable.remap 0x1 0x1).remap 0xe 0xe).remap 0x10 0x10).get 0x1 = some 0x1
      decide
    · show (((baseRemapTable.remap 0x1 0x1).remap 0xe 0xe).remap 0x10 0x10).get 0xe = some 0xe
      decide
    · show (((baseRemapTable.remap 0x1 0x1).remap 0xe 0xe).remap 0x10 0x10).get 0x10 = some 0x10
      decide
    · show baseRemapTable.get 0 = some 0
      decide
    · show baseRemapTable.get 0 = some 0
      decide
    · exact foldl_remap_preserve fontRemaps baseRemapTable 0 0 (by decide)
  exact identityRemapsHold_foldl ops _ hinit

/-! ## Pass 1: the populate loop

`rawEmulatedPolymorphicInsertTransform` streams
`SELECT ... FROM bis.Element e ... WHERE e.ECInstanceId NOT IN (0x1, 0xe,
0x10) ORDER BY e.ECInstanceId ASC` and, for each row, executes the populate
INSERT (which places the row at the next value of the target element id
sequence held in `be_Local` under `bis_elementidsequence`) and records
`remapTables.element.remap(sourceId, targetId)` (lines 784-839).  The model
abstracts the target id sequence as a counter starting at the sequence value
read from `be_Local`.
-/

/-- The reserved root element ids excluded by the populate and hydrate
streams (`WHERE e.ECInstanceId NOT IN (0x1, 0xe, 0x10)`). -/
def rootElementIds : List Nat := [0x1, 0xe, 0x10]

structure Pass1State where
  table : CompactRemapTable
  nextElemId : Nat
deriving DecidableEq, Repr

/-- One iteration of the populate loop for a source element id: insert the
row at the next target id and record the pair in the element remap table. -/
def pass1Step (st : Pass1State) (sourceId : Nat) : Pass1State :=
  { table := st.table.remap sourceId st.nextElemId
    nextElemId := st.nextElemId + 1 }

/-- The whole populate pass over the streamed (root-free) element ids. -/
def pass1Populate (st : Pass1State) (sourceIds : List Nat) : Pass1State :=
  sourceIds.foldl pass1Step st

/-- The element remap table right after the initialization region: `0 → 0`,
`0x1 → 0x1`, `0xe → 0xe`, `0x10 → 0x10`. -/
def initialElementRemapTable : CompactRemapTable :=
  ((baseRemapTable.remap 0x1 0x1).remap 0xe 0xe).remap 0x10 0x10

theorem pass1Populate_preserve (ids : List Nat) :
    ∀ (st : Pass1State) (x w : Nat), st.table.get x = some w →
      (pass1Populate st ids).table.get x = some w := by
  induction ids with
  | nil => intro st x w h; simpa [pass1Populate] using h
  | cons j rest ih =>
    intro st x w h
    exact ih _ _ _ (CompactRemapTable.get_remap_preserve _ _ _ _ _ h)

theorem pass1Populate_get (ids : List Nat) :
    ∀ (st : Pass1State), ids.Nodup →
      (∀ i ∈ ids, ¬ st.table.covered i = true) →
      ∀ i ∈ ids, ∃ t, (pass1Populate st ids).table.get i = some t ∧
        st.nextElemId ≤ t := by
  induction ids with
  | nil => simp
  | cons j rest ih =>
    intro st hnodup hcov i hi
    have hstep : (pass1Step st j).table.get j = some st.nextElemId :=
      CompactRemapTable.get_remap_self _ _ _ (hcov j (List.mem_cons_self _ _))
    rcases List.mem_cons.mp hi with rfl | hi'
    · refine ⟨st.nextElemId, ?_, Nat.le_refl _⟩
      exact pass1Populate_preserve rest (pass1Step st i) i st.nextElemId hstep
    · have hcov' : ∀ k ∈ rest, ¬ (pass1Step st j).table.covered k = true := by
        intro k hk hck
        rcases (CompactRemapTable.covered_remap st.table j st.nextElemId k).mp hck with
          hold | hkj
        · exact hcov k (List.mem_cons_of_mem _ hk) hold
        · exact (List.nodup_cons.mp hnodup).1 (hkj ▸ hk)
      obtain ⟨t, hget, hle⟩ :=
        ih (pass1Step st j) (List.nodup_cons.mp hnodup).2 hcov' i hi'
      exact ⟨t, hget, Nat.le_trans (Nat.le_succ _) hle⟩

theorem initialElementRemapTable_not_covered (i : Nat)
    (h0 : i ≠ 0) (h1 : i ≠ 0x1) (he : i ≠ 0xe) (h10 : i ≠ 0x10) :
    ¬ initialElementRemapTable.covered i = true := by
  have : initialElementRemapTable =
      ⟨[⟨0, 0, 2⟩, ⟨0xe, 0xe, 1⟩, ⟨0x10, 0x10, 1⟩]⟩ := by decide
  rw [this]
  simp only [CompactRemapTable.covered, List.any_eq_true, List.mem_cons,
    List.not_mem_nil, or_false, RemapRun.contains, decide_eq_true_eq]
  rintro ⟨r, (rfl | rfl | rfl), hc⟩ <;> dsimp only at hc <;> omega

/-- C2: at the end of pass 1 every element id present in the source database
is mapped by the element remap table to a valid (nonzero) target id — the
reserved roots `0x1`, `0xe`, `0x10` through the identity entries installed
before the loop, every other element through the `remap(sourceId, targetId)`
recorded when its row was populated.  Hypotheses: a real element stream
yields distinct, valid (nonzero) ids, and the target element id sequence
read from `be_Local` is positive. -/
theorem pass1_element_remap_total
    (sourceElemIds : List Nat) (seqStart : Nat)
    (hvalid : ∀ i ∈ sourceElemIds, i ≠ 0)
    (hnodup : sourceElemIds.Nodup)
    (hseq : 1 ≤ seqStart) :
    ∀ i ∈ sourceElemIds,
      ∃ t, (pass1Populate ⟨initialElementRemapTable, seqStart⟩
              (sourceElemIds.filter (fun i => !rootElementIds.contains i))).table.get i
            = some t ∧ t ≠ 0 := by
  intro i hi
  by_cases hroot : i ∈ rootElementIds
  · simp only [rootElementIds, List.mem_cons, List.not_mem_nil, or_false] at hroot
    have hbase : initialElementRemapTable.get i = some i := by
      rcases hroot with rfl | rfl | rfl <;> decide
    refine ⟨i, pass1Populate_preserve _ _ _ _ hbase, ?_⟩
    rcases hroot with rfl | rfl | rfl <;> decide
  · have hmem : i ∈ sourceElemIds.filter (fun i => !rootElementIds.contains i) := by
      rw [List.mem_filter]
      exact ⟨hi, by simpa using hroot⟩
    have hcov : ∀ k ∈ sourceElemIds.filter (fun i => !rootElementIds.contains i),
        ¬ initialElementRemapTable.covered k = true := by
      intro k hk
      have hk' := List.mem_filter.mp hk
      have hkroot : k ∉ rootElementIds := by simpa using hk'.2
      refine initialElementRemapTable_not_covered k (hvalid k hk'.1) ?_ ?_ ?_ <;>
        (intro hkeq; subst hkeq; simp [rootElementIds] at hkroot)
    obtain ⟨t, hget, hle⟩ := pass1Populate_get _ ⟨initialElementRemapTable, seqStart⟩
      (hnodup.filter _) hcov i hmem
    have hle' : seqStart ≤ t := hle
    exact ⟨t, hget, by omega⟩

/-- Witness for `pass1_element_remap_total` at a concrete source element
stream. -/
theorem pass1_element_remap_total_witness :
    (∀ i ∈ [0x1, 0xe, 0x10, 0x20, 0x21], i ≠ 0) ∧
    ([0x1, 0xe, 0x10, 0x20, 0x21] : List Nat).Nodup ∧ 1 ≤ 0x22 ∧
    ∀ i ∈ [0x1, 0xe, 0x10, 0x20, 0x21],
      ∃ t, (pass1Populate ⟨initialElementRemapTable, 0x22⟩
              ([0x1, 0xe, 0x10, 0x20, 0x21].filter
                (fun i => !rootElementIds.contains i))).table.get i
            = some t ∧ t ≠ 0 :=
  ⟨by decide, by decide, by decide,
    pass1_element_remap_total [0x1, 0xe, 0x10, 0x20, 0x21] 0x22
      (by decide) (by decide) (by decide)⟩

/-! ## The inline SQL remap expression

`remapSql(idExpr, remapType)` (JsPolymorphicInserter.ts, lines 40-44)
produces the scalar subquery
`(SELECT TargetId + ((idExpr) - SourceId) FROM temp.<remapType>_remap WHERE
idExpr BETWEEN SourceId AND SourceId + Length - 1)`.
It is spliced (through `injectExpr`) into the hydrate UPDATE and the
aspect/relationship INSERT statements.  The temp table rows are the runs
flushed from the corresponding `CompactRemapTable` after pass 1 (lines
841-853).  A scalar subquery yields the value computed from the first
matching row, and SQL NULL (here `none`) when no row matches.
-/

/-- Evaluation of the `remapSql` scalar subquery against the rows of a temp
remap table, at a bound id value `v`. -/
def remapSqlEval (rows : List RemapRun) (v : Nat) : Option Nat :=
  (rows.find? (fun r => r.contains v)).map (fun r => r.tgt + (v - r.src))

/-- Non-overlap of two temp-table rows, as interval arithmetic on
`[SourceId, SourceId + Length - 1]`. -/
def RemapRun.disjointWith (r₁ r₂ : RemapRun) : Bool :=
  r₁.src + r₁.len ≤ r₂.src ∨ r₂.src + r₂.len ≤ r₁.src

theorem disjointWith_not_both_contains (r₁ r₂ : RemapRun) (v : Nat)
    (h₁ : 1 ≤ r₁.len) (h₂ : 1 ≤ r₂.len)
    (hd : r₁.disjointWith r₂ = true) :
    ¬ (r₁.contains v = true ∧ r₂.contains v = true) := by
  simp only [RemapRun.disjointWith, RemapRun.contains, decide_eq_true_eq] at hd ⊢
  omega

/-- C4: for every id value `v` and every run `(SourceId, TargetId, Length)`
stored in a temp remap table whose rows are non-degenerate and pairwise
non-overlapping (as guaranteed by the `SourceId` primary key and the run
flush), the inline `remapSql` expression evaluates to
`TargetId + (v - SourceId)` whenever `SourceId ≤ v ≤ SourceId + Length - 1`,
and to SQL NULL (`none`) when `v` lies in no stored run. -/
theorem remapSql_run_lookup (rows : List RemapRun) (v : Nat)
    (hlen : ∀ r ∈ rows, 1 ≤ r.len)
    (hdisj : rows.Pairwise (fun a b => a.disjointWith b = true)) :
    (∀ r ∈ rows, r.contains v = true →
      remapSqlEval rows v = some (r.tgt + (v - r.src)))
    ∧ ((∀ r ∈ rows, ¬ r.contains v = true) → remapSqlEval rows v = none) := by
  constructor
  · induction rows with
    | nil => simp
    | cons a rest ih =>
      intro r hr hrv
      rcases List.mem_cons.mp hr with rfl | hr'
      · simp [remapSqlEval, List.find?, hrv]
      · have hav : ¬ a.contains v = true := by
          intro hav
          have hd := (List.pairwise_cons.mp hdisj).1 r hr'
          exact disjointWith_not_both_contains a r v
            (hlen a (List.mem_cons_self _ _)) (hlen r (List.mem_cons_of_mem _ hr'))
            hd ⟨hav, hrv⟩
        have := ih (fun r' h' => hlen r' (List.mem_cons_of_mem _ h'))
          (List.pairwise_cons.mp hdisj).2 r hr' hrv
        simpa [remapSqlEval, List.find?, hav] using this
  · intro hnone
    have : rows.find? (fun r => r.contains v) = none :=
      List.find?_eq_none.mpr (fun r hr => by simpa using hnone r hr)
    simp [remapSqlEval, this]

/-- Witness for `remapSql_run_lookup`: a two-run table, an id inside the
second run, and an id in no run. -/
theorem remapSql_run_lookup_witness :
    remapSqlEval [⟨0, 0, 1⟩, ⟨0x20, 0x100, 4⟩] 0x22 = some 0x102 ∧
    remapSqlEval [⟨0, 0, 1⟩, ⟨0x20, 0x100, 4⟩] 0x50 = none := by
  constructor
  · exact (remapSql_run_lookup [⟨0, 0, 1⟩, ⟨0x20, 0x100, 4⟩] 0x22
      (by decide) (by decide)).1 ⟨0x20, 0x100, 4⟩ (by decide) (by decide)
  · exact (remapSql_run_lookup [⟨0, 0, 1⟩, ⟨0x20, 0x100, 4⟩] 0x50
      (by decide) (by decide)).2 (by decide)

/-! ## The returned Remapper

When `rawEmulatedPolymorphicInsertTransform` is called with
`returnRemapper = true` (lines 968-992), it reads each temp remap table with
`SELECT format('0x%x', SourceId), format('0x%x', TargetId) FROM
temp.<type>_remap` into a JS `Map` and answers
`findTarget{Element,Aspect,CodeSpec}Id(id)` by `remaps.get(id) ??
Id64.invalid`.  As the canonical hex rendering is injective, the map is
embedded with numeric keys; `Map.set` lets a later row overwrite an earlier
one with the same `SourceId`.
-/

/-- The JS `Map` contents built from the rows of a temp remap table. -/
def remapperEntries (rows : List RemapRun) : Nat → Option Nat :=
  rows.foldl (fun m r => fun k => if k = r.src then some r.tgt else m k)
    (fun _ => none)

/-- `findTargetElementId` (and `findTargetAspectId`,
`findTargetCodeSpecId`) of the returned `Remapper`:
`remaps.get(id) ?? Id64.invalid`. -/
def remapperFindTargetId (rows : List RemapRun) (id : Nat) : Nat :=
  (remapperEntries rows id).getD 0

theorem remapperEntries_foldl_skip (rows : List RemapRun) (id : Nat)
    (hno : ∀ r ∈ rows, r.src ≠ id) :
    ∀ (m : Nat → Option Nat),
      (rows.foldl (fun m r => fun k => if k = r.src then some r.tgt else m k) m) id
        = m id := by
  induction rows with
  | nil => intro m; rfl
  | cons a rest ih =>
    intro m
    rw [List.foldl_cons, ih (fun r hr => hno r (List.mem_cons_of_mem _ hr))]
    simp [Ne.symm (hno a (List.mem_cons_self _ _))]

/-- C9: the `Remapper` lookups answer only for source ids equal to the
`SourceId` field of some stored remap run, returning that run's `TargetId`;
every other source id — including ids strictly inside a run of length
greater than one — gets the invalid id `0`. -/
theorem remapper_only_answers_run_starts (rows : List RemapRun) (id : Nat) :
    ((∀ r ∈ rows, r.src ≠ id) → remapperFindTargetId rows id = 0)
    ∧ (∀ r ∈ rows, r.src = id → (rows.map RemapRun.src).Nodup →
        remapperFindTargetId rows id = r.tgt) := by
  constructor
  · intro hno
    unfold remapperFindTargetId remapperEntries
    rw [remapperEntries_foldl_skip rows id hno]
    rfl
  · intro r hr hsrc hnodup
    unfold remapperFindTargetId remapperEntries
    induction rows with
    | nil => exact absurd hr (List.not_mem_nil _)
    | cons a rest ih =>
      rw [List.map_cons] at hnodup
      have h1 := (List.nodup_cons.mp hnodup).1
      have h2 := (List.nodup_cons.mp hnodup).2
      rcases List.mem_cons.mp hr with rfl | hr'
      · rw [List.foldl_cons]
        have hrest : ∀ r' ∈ rest, r'.src ≠ id := by
          intro r' h' heq
          apply h1
          have hm : r'.src ∈ rest.map RemapRun.src := List.mem_map_of_mem RemapRun.src h'
          rwa [heq, ← hsrc] at hm
        rw [remapperEntries_foldl_skip rest id hrest]
        simp [hsrc]
      · rw [List.foldl_cons]
        have hane : a.src ≠ id := by
          intro heq
          apply h1
          have hm : r.src ∈ rest.map RemapRun.src := List.mem_map_of_mem RemapRun.src hr'
          rwa [hsrc, ← heq] at hm
        -- the accumulator only matters at key `id`
        have haccs : ∀ (l : List RemapRun) (m₁ m₂ : Nat → Option Nat), m₁ id = m₂ id →
            (l.foldl (fun m r => fun k => if k = r.src then some r.tgt else m k) m₁) id
              = (l.foldl (fun m r => fun k => if k = r.src then some r.tgt else m k) m₂) id := by
          intro l
          induction l with
          | nil => intro m₁ m₂ h; simpa using h
          | cons b rest₂ ih₂ =>
            intro m₁ m₂ h
            rw [List.foldl_cons, List.foldl_cons]
            apply ih₂
            by_cases hb : id = b.src <;> simp [hb, h]
        have heq := haccs rest
          (fun k => if k = a.src then some a.tgt else (fun _ => none : Nat → Option Nat) k)
          (fun _ => none : Nat → Option Nat)
          (by simp [Ne.symm hane])
        rw [heq]
        exact ih hr' h2

/-- Witness for `remapper_only_answers_run_starts`: a run of length 4
starting at `0x20`; the start answers `0x100`, the strictly interior id
`0x21` answers invalid. -/
theorem remapper_only_answers_run_starts_witness :
    remapperFindTargetId [⟨0x20, 0x100, 4⟩] 0x21 = 0 ∧
    remapperFindTargetId [⟨0x20, 0x100, 4⟩] 0x20 = 0x100 := by
  constructor
  · exact (remapper_only_answers_run_starts [⟨0x20, 0x100, 4⟩] 0x21).1 (by decide)
  · exact (remapper_only_answers_run_starts [⟨0x20, 0x100, 4⟩] 0x20).2
      ⟨0x20, 0x100, 4⟩ (List.mem_singleton.mpr rfl) rfl (by decide)

/-! ## IModelCloneContext

Embedding of `IModelCloneContext.ts`.  Entity references are kind-prefixed
id strings (`EntityReference.ts` is not under the provided sources; per its
use the kinds are the `ConcreteEntityTypes` letters e/m/a/r/c); we carry
them as (kind, numeric id) pairs together with their string rendering.  The
three remap tables of the context are JS `Map`s; only lookups matter here,
so they are carried as functions `Nat → Option Nat`.  The two prepared
statements of the relationship branch of `findTargetEntityId` read the
`BisCore:ElementRefersToElements` link table — both on `this.sourceDb` —
and the endpoint-kind CASE expression classifies each endpoint's root class
(`error` when unknown, embedded as `none`).
-/

inductive EntityKind
  | element
  | model
  | aspect
  | relationship
  | codeSpec
deriving DecidableEq, Repr

abbrev EntityReference := EntityKind × Nat

/-- The `ConcreteEntityTypes` letter prefixed to a raw id. -/
def EntityKind.letter : EntityKind → String
  | .element => "e"
  | .model => "m"
  | .aspect => "a"
  | .relationship => "r"
  | .codeSpec => "c"

/-- The string form of an entity reference: kind letter followed by the
`Id64String` (canonical lowercase hex, `"0"` for the invalid id). -/
def renderRef (r : EntityReference) : String :=
  r.1.letter ++ (if r.2 = 0 then "0" else "0x" ++ String.mk (Nat.toDigits 16 r.2))

/-- `Id64.isInvalid` from `@itwin/core-bentley`: an exact string comparison
against `Id64.invalid = "0"`.  In the relationship branch it is applied to
kind-prefixed `EntityReference` strings such as `"e0"`. -/
def id64IsInvalid (s : String) : Bool := s = "0"

/-- One row of the `BisCore:ElementRefersToElements` link table as read by
`findTargetEntityId`: instance id, endpoint ids, and the endpoint kinds
computed by the CASE expression over the endpoint class ids (`none` embeds
the `'error'` branch for an unknown root class). -/
structure LinkTableRow where
  relId : Nat
  srcId : Nat
  tgtId : Nat
  srcKind : Option EntityKind
  tgtKind : Option EntityKind
deriving DecidableEq, Repr

/-- `CodeScopeSpec.Type` of `@itwin/core-common`. -/
inductive CodeScopeType
  | repository
  | model
  | parentElement
  | relatedElement
deriving DecidableEq, Repr

/-- A `(spec, scope, value)` code. -/
structure Code where
  spec : Nat
  scope : Nat
  value : String
deriving DecidableEq, Repr

/-- The state of an `IModelCloneContext` consulted by the operations the
claims concern: the remap `Map`s, the source link table, the target link
table (only read by the spec-worded variant of the relationship lookup),
the code spec scope types of the target database
(`targetDb.codeSpecs.getById(...).scopeType`, `none` when `getById`
throws), and the `ECReferenceTypesCache` lookup. -/
structure CloneContext where
  targetIsSource : Bool
  elementRemapTable : Nat → Option Nat
  aspectRemapTable : Nat → Option Nat
  codeSpecRemapTable : Nat → Option Nat
  sourceLinkTable : List LinkTableRow
  targetLinkTable : List LinkTableRow
  targetScopeType : Nat → Option CodeScopeType
  refTypesCache : String → String → String → Option EntityKind

/-- `findTargetElementId`: `this._elementRemapTable.get(id) ?? Id64.invalid`. -/
def CloneContext.findTargetElementId (ctx : CloneContext) (id : Nat) : Nat :=
  (ctx.elementRemapTable id).getD 0

/-- `findTargetAspectId`: `this._aspectRemapTable.get(id) ?? Id64.invalid`. -/
def CloneContext.findTargetAspectId (ctx : CloneContext) (id : Nat) : Nat :=
  (ctx.aspectRemapTable id).getD 0

/-- `findTargetCodeSpecId`: `this._codeSpecRemapTable.get(id) ?? Id64.invalid`. -/
def CloneContext.findTargetCodeSpecId (ctx : CloneContext) (id : Nat) : Nat :=
  (ctx.codeSpecRemapTable id).getD 0

/-- `findTargetEntityId` (IModelCloneContext.ts lines 133-232).  Thrown
`Error`s become `Except.error`; the unbounded mutual recursion through
relationship endpoints is bounded by a fuel parameter (the JS call stack),
whose exhaustion is a distinct error never reached in the claims below. -/
def CloneContext.findTargetEntityId (ctx : CloneContext) :
    Nat → EntityReference → Except String EntityReference
  | _, (.model, rawId) =>
    if rawId = 0 then .ok (.model, 0)
    else .ok (.model, ctx.findTargetElementId rawId)
  | _, (.element, rawId) =>
    if rawId = 0 then .ok (.element, 0)
    else .ok (.element, ctx.findTargetElementId rawId)
  | _, (.aspect, rawId) =>
    if rawId = 0 then .ok (.aspect, 0)
    else .ok (.aspect, ctx.findTargetAspectId rawId)
  | _, (.codeSpec, rawId) =>
    if rawId = 0 then .ok (.codeSpec, 0)
    else .ok (.codeSpec, ctx.findTargetCodeSpecId rawId)
  | 0, (.relationship, rawId) =>
    if rawId = 0 then .ok (.relationship, 0)
    else .error "recursion fuel exhausted"
  | fuel + 1, (.relationship, rawId) =>
    if rawId = 0 then .ok (.relationship, 0)
    else
      match ctx.sourceLinkTable.find? (fun row => row.relId == rawId) with
      | none => .ok (.relationship, 0)
      | some row =>
        match row.srcKind, row.tgtKind with
        | some sk, some tk =>
          if ((sk, row.srcId) : EntityReference) = (.relationship, rawId) ∨
              ((tk, row.tgtId) : EntityReference) = (.relationship, rawId) then
            .error "link table relationship end was resolved to itself. This should be impossible"
          else
            match ctx.findTargetEntityId fuel (sk, row.srcId) with
            | .error msg => .error msg
            | .ok s =>
              match ctx.findTargetEntityId fuel (tk, row.tgtId) with
              | .error msg => .error msg
              | .ok t =>
                if id64IsInvalid (renderRef s) || id64IsInvalid (renderRef t) then
                  .ok (.relationship, 0)
                else
                  -- the second prepared statement also runs on `this.sourceDb`
                  match ctx.sourceLinkTable.find?
                      (fun row2 => row2.srcId == s.2 && row2.tgtId == t.2) with
                  | some row2 => .ok (.relationship, row2.relId)
                  | none => .ok (.relationship, 0)
        | _, _ => .error "relationship end had unknown root class"

/-- Modelled from the spec: the spec resolves a relationship by selecting
"the existing target's relationship id by the remapped (sourceId, targetId)
pair"; this variant is `findTargetEntityId` with the one difference that the
final SELECT runs against the target database's link table instead of
`this.sourceDb`. -/
def CloneContext.findTargetEntityIdSpecWorded (ctx : CloneContext) :
    Nat → EntityReference → Except String EntityReference
  | _, (.model, rawId) =>
    if rawId = 0 then .ok (.model, 0)
    else .ok (.model, ctx.findTargetElementId rawId)
  | _, (.element, rawId) =>
    if rawId = 0 then .ok (.element, 0)
    else .ok (.element, ctx.findTargetElementId rawId)
  | _, (.aspect, rawId) =>
    if rawId = 0 then .ok (.aspect, 0)
    else .ok (.aspect, ctx.findTargetAspectId rawId)
  | _, (.codeSpec, rawId) =>
    if rawId = 0 then .ok (.codeSpec, 0)
    else .ok (.codeSpec, ctx.findTargetCodeSpecId rawId)
  | 0, (.relationship, rawId) =>
    if rawId = 0 then .ok (.relationship, 0)
    else .error "recursion fuel exhausted"
  | fuel + 1, (.relationship, rawId) =>
    if rawId = 0 then .ok (.relationship, 0)
    else
      match ctx.sourceLinkTable.find? (fun row => row.relId == rawId) with
      | none => .ok (.relationship, 0)
      | some row =>
        match row.srcKind, row.tgtKind with
        | some sk, some tk =>
          if ((sk, row.srcId) : EntityReference) = (.relationship, rawId) ∨
              ((tk, row.tgtId) : EntityReference) = (.relationship, rawId) then
            .error "link table relationship end was resolved to itself. This should be impossible"
          else
            match ctx.findTargetEntityIdSpecWorded fuel (sk, row.srcId) with
            | .error msg => .error msg
            | .ok s =>
              match ctx.findTargetEntityIdSpecWorded fuel (tk, row.tgtId) with
              | .error msg => .error msg
              | .ok t =>
                if id64IsInvalid (renderRef s) || id64IsInvalid (renderRef t) then
                  .ok (.relationship, 0)
                else
                  match ctx.targetLinkTable.find?
                      (fun row2 => row2.srcId == s.2 && row2.tgtId == t.2) with
                  | some row2 => .ok (.relationship, row2.relId)
                  | none => .ok (.relationship, 0)
        | _, _ => .error "relationship end had unknown root class"

theorem findTargetEntityId_element_eq (ctx : CloneContext) (fuel id : Nat) :
    ctx.findTargetEntityId fuel (.element, id) =
      .ok (.element, if id = 0 then 0 else ctx.findTargetElementId id) := by
  by_cases h : id = 0 <;> simp [CloneContext.findTargetEntityId, h]

theorem findTargetEntityId_codeSpec_eq (ctx : CloneContext) (fuel id : Nat) :
    ctx.findTargetEntityId fuel (.codeSpec, id) =
      .ok (.codeSpec, if id = 0 then 0 else ctx.findTargetCodeSpecId id) := by
  by_cases h : id = 0 <;> simp [CloneContext.findTargetEntityId, h]

/-! ## Cloning

`_cloneEntity` / `cloneElement` (IModelCloneContext.ts lines 241-393).  The
modelled element carries the fields the claims consult: its code, federation
GUID, its navigation properties as (name, optional raw id) — an absent value
is `none`, mirroring the falsy `sourceNavId` check — and its Id-typed long
properties.  `cloneElement` always installs the `codeSpec`/`codeScope`
special handlers; the view-definition handlers (`modelSelector`,
`displayStyle`, `categorySelector`, `baseModel`) are element-reference
handlers of exactly the same shape and are subsumed by the generic
navigation properties of this model.  The nav-defaulting step (lines
366-370) touches only navigation properties without a value and the
per-class `onCloned` hook (line 391) is an external callback; both leave the
modelled fields unchanged.
-/

structure SourceElement where
  schemaName : String
  className : String
  code : Code
  federationGuid : Option Nat
  navProps : List (String × Option Nat)
  idProps : List (String × Nat)
deriving DecidableEq, Repr

/-- The cloned props: the code, the federation GUID, and the remapped
navigation / Id-typed long property values by name. -/
structure TargetElementProps where
  code : Code
  federationGuid : Option Nat
  navValues : List (String × Nat)
  idValues : List (String × Nat)
deriving DecidableEq, Repr

/-- `IModelJsNative.CloneElementOptions`. -/
structure CloneElementOptions where
  binaryGeometry : Bool
deriving DecidableEq, Repr

/-- One navigation property of `_cloneEntity`'s `forEachProperty` loop: skip
properties without a value; assert the `ECReferenceTypesCache` entry exists;
resolve the reference through `findTargetEntityId`. -/
def cloneNavStep (ctx : CloneContext) (fuel : Nat) (e : SourceElement)
    (acc : List (String × Nat)) (p : String × Option Nat) :
    Except String (List (String × Nat)) :=
  match p.2 with
  | none => .ok acc
  | some v =>
    match ctx.refTypesCache e.schemaName e.className p.1 with
    | none => .error "nav prop ref type was not in the cache, this is a bug."
    | some k =>
      match ctx.findTargetEntityId fuel (k, v) with
      | .error msg => .error msg
      | .ok r => .ok (acc ++ [(p.1, r.2)])

def cloneNavProps (ctx : CloneContext) (fuel : Nat) (e : SourceElement) :
    Except String (List (String × Nat)) :=
  e.navProps.foldlM (cloneNavStep ctx fuel e) []

/-- `_cloneEntity` as invoked by `cloneElement`: `toJSON` copies the entity
(with a fresh code object); when the target is the source the copy is
returned as-is; otherwise the `codeSpec`/`codeScope` special handlers and
the navigation / Id-typed long rules rewrite every reference. -/
def CloneContext.cloneEntityElement (ctx : CloneContext) (fuel : Nat)
    (e : SourceElement) : Except String TargetElementProps :=
  let base : TargetElementProps :=
    { code := e.code
      federationGuid := e.federationGuid
      navValues := e.navProps.filterMap (fun p => p.2.map (fun v => (p.1, v)))
      idValues := e.idProps }
  if ctx.targetIsSource then .ok base
  else
    match ctx.findTargetEntityId fuel (.codeSpec, e.code.spec) with
    | .error msg => .error msg
    | .ok specRef =>
      match ctx.findTargetEntityId fuel (.element, e.code.scope) with
      | .error msg => .error msg
      | .ok scopeRef =>
        match cloneNavProps ctx fuel e with
        | .error msg => .error msg
        | .ok navValues =>
          .ok { code := { spec := specRef.2, scope := scopeRef.2, value := e.code.value }
                federationGuid := e.federationGuid
                navValues := navValues
                idValues := e.idProps.map (fun p => (p.1, ctx.findTargetElementId p.2)) }

/-- `cloneElement` (lines 302-393): clone, require `binaryGeometry` (the
geometry attach block only adds the blob, carried outside the modelled
fields, and cloning without it throws), restore the federation GUID and
rescope Repository-scoped codes to the root subject on intra-database
transforms, and canonicalize empty codes. -/
def CloneContext.cloneElement (ctx : CloneContext) (fuel : Nat)
    (e : SourceElement) (cloneOptions : Option CloneElementOptions) :
    Except String TargetElementProps :=
  match ctx.cloneEntityElement fuel e with
  | .error msg => .error msg
  | .ok props =>
    if ((cloneOptions.map (fun o => o.binaryGeometry)).getD false) = false then
      .error "not yet supported, will require the native context to be modified"
    else
      match
        (if ctx.targetIsSource then
          match ctx.targetScopeType props.code.spec with
          | none => Except.error "CodeSpec not found"
          | some st =>
            Except.ok { props with
              federationGuid := e.federationGuid
              code := if st = CodeScopeType.repository then
                  { props.code with scope := 0x1 }
                else props.code }
        else Except.ok props) with
      | .error msg => .error msg
      | .ok props2 =>
        .ok (if props2.code.scope = 0 ∨ props2.code.spec = 0 then
            { props2 with code := ⟨0, 0, ""⟩ }
          else props2)

def exceptIsOk {α : Type} : Except String α → Bool
  | .ok _ => true
  | .error _ => false

/-- C10: without `cloneOptions.binaryGeometry` set to true — including the
default of passing no options — `cloneElement` never returns cloned element
props, and whenever the cloning step itself succeeds the thrown error is
the "not yet supported" one from line 361. -/
theorem cloneElement_requires_binaryGeometry (ctx : CloneContext) (fuel : Nat)
    (e : SourceElement) (opts : Option CloneElementOptions)
    (hgeom : (opts.map (fun o => o.binaryGeometry)).getD false = false) :
    exceptIsOk (ctx.cloneElement fuel e opts) = false ∧
    (exceptIsOk (ctx.cloneEntityElement fuel e) = true →
      ctx.cloneElement fuel e opts =
        .error "not yet supported, will require the native context to be modified") := by
  constructor
  · cases hce : ctx.cloneEntityElement fuel e with
    | error m => simp [CloneContext.cloneElement, hce, exceptIsOk]
    | ok p => simp [CloneContext.cloneElement, hce, hgeom, exceptIsOk]
  · intro hok
    cases hce : ctx.cloneEntityElement fuel e with
    | error m => rw [hce] at hok; simp [exceptIsOk] at hok
    | ok p => simp [CloneContext.cloneElement, hce, hgeom]

/-- A concrete intra-database clone context. -/
def ctxIntra : CloneContext :=
  { targetIsSource := true
    elementRemapTable := fun _ => none
    aspectRemapTable := fun _ => none
    codeSpecRemapTable := fun _ => none
    sourceLinkTable := []
    targetLinkTable := []
    targetScopeType := fun _ => some .repository
    refTypesCache := fun _ _ _ => none }

/-- A concrete element with a Repository-scoped code. -/
def elemW : SourceElement :=
  { schemaName := "BisCore"
    className := "PhysicalObject"
    code := ⟨5, 7, "W"⟩
    federationGuid := some 42
    navProps := []
    idProps := [] }

/-- Witness for `cloneElement_requires_binaryGeometry`: cloning `elemW`
without options throws the "not yet supported" error. -/
theorem cloneElement_requires_binaryGeometry_witness :
    ctxIntra.cloneElement 1 elemW none =
      .error "not yet supported, will require the native context to be modified" :=
  (cloneElement_requires_binaryGeometry ctxIntra 1 elemW none rfl).2 rfl

theorem foldlM_cloneNavStep_error (ctx : CloneContext) (fuel : Nat)
    (e : SourceElement) (name : String) (v : Nat)
    (hmiss : ctx.refTypesCache e.schemaName e.className name = none) :
    ∀ (l : List (String × Option Nat)) (acc : List (String × Nat)),
      (name, some v) ∈ l →
      exceptIsOk (l.foldlM (cloneNavStep ctx fuel e) acc) = false := by
  intro l
  induction l with
  | nil => intro acc h; exact absurd h (List.not_mem_nil _)
  | cons p rest ih =>
    intro acc hmem
    rw [List.foldlM_cons]
    rcases List.mem_cons.mp hmem with heq | hmem'
    · rw [← heq]
      have hstep : cloneNavStep ctx fuel e acc (name, some v) =
          .error "nav prop ref type was not in the cache, this is a bug." := by
        simp [cloneNavStep, hmiss]
      rw [hstep]
      rfl
    · cases hstep : cloneNavStep ctx fuel e acc p with
      | error m => rfl
      | ok acc' =>
        show exceptIsOk (rest.foldlM (cloneNavStep ctx fuel e) acc') = false
        exact ih acc' hmem'

/-- C8: on an inter-database clone, a navigation property that holds a value
but has no `ECReferenceTypesCache` entry for its
`(schema, class, property)` triple makes `_cloneEntity` fail the
`navPropRefType !== undefined` assertion: neither `_cloneEntity` nor
`cloneElement` ever returns props. -/
theorem cloneEntity_missing_navPropRefType_fatal (ctx : CloneContext)
    (fuel : Nat) (e : SourceElement) (name : String) (v : Nat)
    (opts : Option CloneElementOptions)
    (hinter : ctx.targetIsSource = false)
    (hmem : (name, some v) ∈ e.navProps)
    (hmiss : ctx.refTypesCache e.schemaName e.className name = none) :
    exceptIsOk (ctx.cloneEntityElement fuel e) = false ∧
    exceptIsOk (ctx.cloneElement fuel e opts) = false := by
  have hnav : exceptIsOk (cloneNavProps ctx fuel e) = false :=
    foldlM_cloneNavStep_error ctx fuel e name v hmiss e.navProps [] hmem
  have hentity : exceptIsOk (ctx.cloneEntityElement fuel e) = false := by
    cases hn : cloneNavProps ctx fuel e with
    | error m =>
      simp [CloneContext.cloneEntityElement, hinter, findTargetEntityId_codeSpec_eq,
        findTargetEntityId_element_eq, hn, exceptIsOk]
    | ok navValues => rw [hn] at hnav; simp [exceptIsOk] at hnav
  refine ⟨hentity, ?_⟩
  cases hce : ctx.cloneEntityElement fuel e with
  | error m => simp [CloneContext.cloneElement, hce, exceptIsOk]
  | ok p => rw [hce] at hentity; simp [exceptIsOk] at hentity

/-- A concrete inter-database clone context whose reference-types cache is
empty. -/
def ctxNoCache : CloneContext :=
  { targetIsSource := false
    elementRemapTable := fun _ => none
    aspectRemapTable := fun _ => none
    codeSpecRemapTable := fun _ => none
    sourceLinkTable := []
    targetLinkTable := []
    targetScopeType := fun _ => none
    refTypesCache := fun _ _ _ => none }

/-- A concrete element with one valued navigation property. -/
def elemNav : SourceElement :=
  { schemaName := "BisCore"
    className := "PhysicalObject"
    code := ⟨5, 7, "N"⟩
    federationGuid := none
    navProps := [("TypeDefinition", some 9)]
    idProps := [] }

/-- Witness for `cloneEntity_missing_navPropRefType_fatal`. -/
theorem cloneEntity_missing_navPropRefType_fatal_witness :
    exceptIsOk (ctxNoCache.cloneEntityElement 1 elemNav) = false ∧
    exceptIsOk (ctxNoCache.cloneElement 1 elemNav (some ⟨true⟩)) = false :=
  cloneEntity_missing_navPropRefType_fatal ctxNoCache 1 elemNav
    "TypeDefinition" 9 (some ⟨true⟩) rfl (List.mem_singleton.mpr rfl) rfl

/-- C7 (amended): for an element whose code spec resolves to a CodeSpec of
Repository scope type, an intra-database `cloneElement` sets the cloned
code's scope to the root subject id `0x1`; on an inter-database transform
the Repository special case (guarded by `targetIsSource`, line 372) does not
apply and the cloned scope is the element-remapped code scope, with the
whole code canonicalized to the empty code when the remapped scope or spec
is invalid. -/
theorem cloneElement_repository_scope (ctx : CloneContext) (fuel : Nat)
    (e : SourceElement) (opts : Option CloneElementOptions) :
    (ctx.targetIsSource = true →
      (opts.map (fun o => o.binaryGeometry)).getD false = true →
      ctx.targetScopeType e.code.spec = some .repository →
      e.code.spec ≠ 0 →
      ∃ props, ctx.cloneElement fuel e opts = .ok props ∧ props.code.scope = 0x1) ∧
    (∀ props sref tref,
      ctx.targetIsSource = false →
      ctx.findTargetEntityId fuel (.codeSpec, e.code.spec) = .ok sref →
      ctx.findTargetEntityId fuel (.element, e.code.scope) = .ok tref →
      ctx.cloneElement fuel e opts = .ok props →
      props.code.scope = if tref.2 = 0 ∨ sref.2 = 0 then 0 else tref.2) := by
  constructor
  · intro hintra hbg hscope hspec
    refine ⟨{ code := ⟨e.code.spec, 0x1, e.code.value⟩
              federationGuid := e.federationGuid
              navValues := e.navProps.filterMap (fun p => p.2.map (fun v => (p.1, v)))
              idValues := e.idProps }, ?_, rfl⟩
    simp [CloneContext.cloneElement, CloneContext.cloneEntityElement, hintra, hbg,
      hscope, hspec]
  · intro props sref tref hinter hsref htref hok
    have hce : ctx.cloneEntityElement fuel e =
        match cloneNavProps ctx fuel e with
        | .error msg => .error msg
        | .ok navValues =>
          .ok { code := ⟨sref.2, tref.2, e.code.value⟩
                federationGuid := e.federationGuid
                navValues := navValues
                idValues := e.idProps.map (fun p => (p.1, ctx.findTargetElementId p.2)) } := by
      simp [CloneContext.cloneEntityElement, hinter, hsref, htref]
    cases hn : cloneNavProps ctx fuel e with
    | error m =>
      rw [hn] at hce
      simp only [CloneContext.cloneElement, hce] at hok
      exact absurd hok (by simp)
    | ok nav =>
      rw [hn] at hce
      simp only [CloneContext.cloneElement, hce] at hok
      by_cases hbg : ((opts.map (fun o => o.binaryGeometry)).getD false) = false
      · rw [if_pos hbg] at hok
        exact absurd hok (by simp)
      · rw [if_neg hbg] at hok
        simp only [hinter, Bool.false_eq_true, if_false] at hok
        by_cases hc : ((tref.2 = 0 ∨ sref.2 = 0) : Prop)
        · simp only [hc, if_true] at hok ⊢
          simp at hok
          rw [← hok]
        · simp only [hc, if_false] at hok ⊢
          simp at hok
          rw [← hok]

/-- A concrete inter-database clone context remapping code spec `5 → 50`
and element `7 → 70`, whose code specs all have Repository scope type. -/
def ctxInter : CloneContext :=
  { targetIsSource := false
    elementRemapTable := fun n => if n = 7 then some 70 else none
    aspectRemapTable := fun _ => none
    codeSpecRemapTable := fun n => if n = 5 then some 50 else none
    sourceLinkTable := []
    targetLinkTable := []
    targetScopeType := fun _ => some .repository
    refTypesCache := fun _ _ _ => none }

/-- C7 counterexample: on the inter-database transform `ctxInter`, cloning
`elemW` (code spec `5` of Repository scope type, original scope `7`)
produces scope `70`, the element-remapped value — the original scope is not
preserved, and no flag of any kind is recorded. -/
theorem cloneElement_interdb_scope_not_preserved :
    ctxInter.cloneElement 1 elemW (some ⟨true⟩) =
      .ok { code := ⟨50, 70, "W"⟩
            federationGuid := some 42
            navValues := []
            idValues := [] } ∧
    elemW.code.scope = 7 ∧ (70 : Nat) ≠ 7 ∧
    ctxInter.targetScopeType elemW.code.spec = some .repository :=
  ⟨rfl, rfl, by decide, rfl⟩

/-- Witness for `cloneElement_repository_scope`: the intra case at
`ctxIntra` rescopes to `0x1`; the inter case at `ctxInter` yields the
remapped scope `70`. -/
theorem cloneElement_repository_scope_witness :
    (∃ props, ctxIntra.cloneElement 1 elemW (some ⟨true⟩) = .ok props ∧
      props.code.scope = 0x1) ∧
    ({ code := ⟨50, 70, "W"⟩
       federationGuid := some 42
       navValues := []
       idValues := [] } : TargetElementProps).code.scope =
      if (70 : Nat) = 0 ∨ (50 : Nat) = 0 then 0 else 70 :=
  ⟨(cloneElement_repository_scope ctxIntra 1 elemW (some ⟨true⟩)).1
      rfl rfl rfl (by decide),
    (cloneElement_repository_scope ctxInter 1 elemW (some ⟨true⟩)).2
      _ (.codeSpec, 50) (.element, 70) rfl rfl rfl rfl⟩

/-- A concrete inter-database context for the relationship branch of
`findTargetEntityId`: relationship `100` relates elements `10 → 20`, which
remap to `11 → 21`; the source database also happens to contain a
relationship `200` between `11` and `21`, while the target database's
relationship between `11` and `21` is `300`. -/
def ctxRel : CloneContext :=
  { targetIsSource := false
    elementRemapTable := fun n =>
      if n = 10 then some 11 else if n = 20 then some 21 else none
    aspectRemapTable := fun _ => none
    codeSpecRemapTable := fun _ => none
    sourceLinkTable := [⟨100, 10, 20, some .element, some .element⟩,
                        ⟨200, 11, 21, some .element, some .element⟩]
    targetLinkTable := [⟨300, 11, 21, some .element, some .element⟩]
    targetScopeType := fun _ => none
    refTypesCache := fun _ _ _ => none }

/-- C1 (divergence evidence): resolving `Relationship(100)` on `ctxRel`,
the code's final SELECT — prepared on `this.sourceDb` (line 208) — returns
the source database's relationship `200` for the remapped endpoint pair
`(11, 21)`, although the relationship existing in the target database for
that pair is `300` (and no target relationship has id `200`), as the
spec-worded variant selecting from the target shows. -/
theorem findTargetEntityId_relationship_queries_source_db :
    ctxRel.findTargetEntityId 2 (.relationship, 100) = .ok (.relationship, 200) ∧
    ctxRel.findTargetEntityIdSpecWorded 2 (.relationship, 100) =
      .ok (.relationship, 300) ∧
    (200 : Nat) ≠ 300 ∧
    (∀ row ∈ ctxRel.targetLinkTable, row.relId ≠ 200) :=
  ⟨rfl, rfl, by decide, by decide⟩

/-! ## The populate INSERT query

`createPolymorphicEntityQueryMap` (JsPolymorphicInserter.ts) builds, per
concrete class, the pass-1 populate INSERT from the class's property list:
compound property types are skipped (lines 237-253), binary properties other
than `GeometryStream` are split out (lines 256-260), and the column and
VALUES lists are generated property by property (lines 331-369).
`rawEmulatedPolymorphicInsertTransform` passes extra bindings only for the
update (hydrate) queries, so the populate query is modelled in its default
configuration without extra bindings.  A generated VALUES entry is either a
spliced SQL literal or a named parameter later bound (`populate`, lines
423-453, binds `json[p.name]` for each of `populateProperties` and the
selected blobs for the `p_`-parameters).
-/

inductive PropertyType
  | navigation
  | long
  | integer
  | integerEnum
  | string
  | stringEnum
  | double
  | boolean
  | dateTime
  | binary
  | point2d
  | point3d
  | igeometry
  | struct
  | structArray
  | binaryArray
  | booleanArray
  | dateTimeArray
  | doubleArray
  | integerArray
  | integerEnumArray
  | longArray
  | point2dArray
  | point3dArray
  | stringArray
  | stringEnumArray
  | igeometryArray
deriving DecidableEq, Repr

structure PropInfo where
  name : String
  propertyType : PropertyType
  extendedTypeName : Option String
deriving DecidableEq, Repr

/-- The compound property types filtered out of every generated query
(lines 237-253). -/
def PropertyType.isCompound : PropertyType → Bool
  | .struct | .structArray | .binaryArray | .booleanArray | .dateTimeArray
  | .doubleArray | .integerArray | .integerEnumArray | .longArray
  | .point2dArray | .point3dArray | .stringArray | .stringEnumArray
  | .igeometryArray => true
  | _ => false

def nonCompoundProperties (props : List PropInfo) : List PropInfo :=
  props.filter (fun p => !p.propertyType.isCompound)

/-- Binary properties bound as blobs, excluding the separately handled
`GeometryStream` (lines 256-258). -/
def binaryProperties (props : List PropInfo) : List PropInfo :=
  (nonCompoundProperties props).filter
    (fun p => p.propertyType == PropertyType.binary && p.name != "GeometryStream")

def nonBinaryProperties (props : List PropInfo) : List PropInfo :=
  (nonCompoundProperties props).filter
    (fun p => p.propertyType != PropertyType.binary)

/-- `propBindings` (lines 50-56): the parameter names carrying a property's
source value. -/
def propBindings (p : PropInfo) : List String :=
  match p.propertyType with
  | .point3d => ["n_" ++ p.name ++ "_x", "n_" ++ p.name ++ "_y", "n_" ++ p.name ++ "_z"]
  | .point2d => ["n_" ++ p.name ++ "_x", "n_" ++ p.name ++ "_y"]
  | _ => ["n_" ++ p.name]

/-- A generated VALUES entry: a spliced SQL literal, or a named parameter
that the statement later binds with a source value. -/
inductive SqlExpr
  | lit (s : String)
  | param (name : String)
deriving DecidableEq, Repr

/-- Column-list entries of the populate INSERT contributed by one non-binary
property (lines 334-345). -/
def populateColumnsFor (p : PropInfo) : List String :=
  match p.propertyType with
  | .navigation => [p.name ++ ".Id"]
  | .point2d => [p.name ++ ".x", p.name ++ ".y"]
  | .point3d => [p.name ++ ".x", p.name ++ ".y", p.name ++ ".z"]
  | _ => [p.name]

/-- VALUES entries of the populate INSERT contributed by one non-binary
property (lines 353-361): `NULL` for `CodeValue`, the placeholder literal
`0x1` for navigation and Long properties, parameters for the rest. -/
def populateValuesFor (p : PropInfo) : List SqlExpr :=
  if p.name = "CodeValue" then [.lit "NULL"]
  else if p.propertyType = .navigation ∨ p.propertyType = .long then [.lit "0x1"]
  else (propBindings p).map .param

/-- The full populate column list (lines 333-350). -/
def populateColumns (props : List PropInfo) : List String :=
  (nonBinaryProperties props).flatMap populateColumnsFor
    ++ (binaryProperties props).map (fun p => p.name)

/-- The full populate VALUES list (lines 352-368). -/
def populateValues (props : List PropInfo) : List SqlExpr :=
  (nonBinaryProperties props).flatMap populateValuesFor
    ++ (binaryProperties props).map (fun p => SqlExpr.param ("p_" ++ p.name))

/-- `populateProperties` (lines 324-329): the properties whose source values
`populate` binds through `stmtBindProperty`. -/
def populateProperties (props : List PropInfo) : List PropInfo :=
  (nonBinaryProperties props).filter
    (fun p => p.name != "CodeValue"
      && p.propertyType != PropertyType.navigation
      && p.propertyType != PropertyType.long)

/-- The binding layout asserted by claim C5, stated over the generated
VALUES entries: a placeholder (`0x1` or `0`) for every navigation or
Id-typed long column and the actual bound source parameters for every other
(scalar) column. -/
def PopulateBindsPerClaim (props : List PropInfo) : Prop :=
  ∀ p ∈ nonBinaryProperties props,
    if p.propertyType = .navigation ∨
        (p.propertyType = .long ∧ p.extendedTypeName = some "Id") then
      populateValuesFor p = [.lit "0x1"] ∨ populateValuesFor p = [.lit "0"]
    else populateValuesFor p = (propBindings p).map .param

/-- C5 counterexample: for a class with the string property `CodeValue` and
a Long property `Duration` that is not Id-typed, the generated populate
VALUES are `NULL` and `0x1` — not the bound source parameters the claim
requires for such columns. -/
theorem populate_binds_claim_counterexample :
    ¬ PopulateBindsPerClaim
      [⟨"CodeValue", .string, none⟩, ⟨"Duration", .long, none⟩] ∧
    populateValuesFor ⟨"CodeValue", .string, none⟩ = [.lit "NULL"] ∧
    populateValuesFor ⟨"Duration", .long, none⟩ = [.lit "0x1"] := by
  refine ⟨?_, rfl, rfl⟩
  intro h
  have := h ⟨"CodeValue", .string, none⟩ (by decide)
  simp [populateValuesFor, propBindings] at this

theorem flatMap_length_eq {α β γ : Type} (f : α → List β) (g : α → List γ)
    (l : List α) (h : ∀ p ∈ l, (f p).length = (g p).length) :
    (l.flatMap f).length = (l.flatMap g).length := by
  induction l with
  | nil => rfl
  | cons a rest ih =>
    simp only [List.flatMap_cons, List.length_append]
    rw [h a (List.mem_cons_self _ _), ih (fun p hp => h p (List.mem_cons_of_mem _ hp))]

/-- C5 (amended): in the populate INSERT, every navigation and every
Long-typed column (whether or not Id-typed) gets the literal placeholder
`0x1` — never a source value — the `CodeValue` column gets `NULL` (it is
filled during hydrate), and every other scalar column gets the parameters
that `populate` binds with the actual source values; binary non-geometry
columns get their blob parameters; and the generated column and VALUES
lists stay aligned.  The hypothesis excludes the degenerate class shape of
a point property named `CodeValue`, which no real schema has. -/
theorem populate_placeholder_layout (props : List PropInfo)
    (hcv : ∀ p ∈ props, p.name = "CodeValue" →
      p.propertyType ≠ .point2d ∧ p.propertyType ≠ .point3d) :
    (∀ p ∈ nonBinaryProperties props,
      ((p.propertyType = .navigation ∨ p.propertyType = .long) →
        p.name ≠ "CodeValue" → populateValuesFor p = [.lit "0x1"]) ∧
      (p.name = "CodeValue" → populateValuesFor p = [.lit "NULL"]) ∧
      (p.name ≠ "CodeValue" → p.propertyType ≠ .navigation →
        p.propertyType ≠ .long →
        populateValuesFor p = (propBindings p).map .param) ∧
      (populateColumnsFor p).length = (populateValuesFor p).length) ∧
    (∀ p ∈ binaryProperties props,
      SqlExpr.param ("p_" ++ p.name) ∈ populateValues props) ∧
    (∀ p, p ∈ populateProperties props ↔
      (p ∈ nonBinaryProperties props ∧ p.name ≠ "CodeValue" ∧
        p.propertyType ≠ .navigation ∧ p.propertyType ≠ .long)) ∧
    (populateColumns props).length = (populateValues props).length := by
  refine ⟨?_, ?_, ?_, ?_⟩
  · intro p hp
    have hp' : p ∈ props := by
      have := List.mem_filter.mp hp
      exact (List.mem_filter.mp this.1).1
    refine ⟨?_, ?_, ?_, ?_⟩
    · intro htype hname
      rcases htype with h | h <;> simp [populateValuesFor, hname, h]
    · intro hname
      simp [populateValuesFor, hname]
    · intro hname hnav hlong
      simp [populateValuesFor, hname, hnav, hlong]
    · by_cases hname : p.name = "CodeValue"
      · have hpt := hcv p hp' hname
        cases htype : p.propertyType <;>
          simp_all [populateValuesFor, populateColumnsFor, propBindings]
      · cases htype : p.propertyType <;>
          simp [populateValuesFor, populateColumnsFor, propBindings, hname, htype]
  · intro p hp
    unfold populateValues
    exact List.mem_append_right _ (List.mem_map_of_mem _ hp)
  · intro p
    unfold populateProperties
    simp only [List.mem_filter, Bool.and_eq_true, bne_iff_ne, ne_eq, and_assoc]
  · unfold populateColumns populateValues
    rw [List.length_append, List.length_append, List.length_map, List.length_map]
    congr 1
    apply flatMap_length_eq
    intro p hp
    have hp' : p ∈ props := by
      have := List.mem_filter.mp hp
      exact (List.mem_filter.mp this.1).1
    by_cases hname : p.name = "CodeValue"
    · have hpt := hcv p hp' hname
      cases htype : p.propertyType <;>
        simp_all [populateValuesFor, populateColumnsFor, propBindings]
    · cases htype : p.propertyType <;>
        simp [populateValuesFor, populateColumnsFor, propBindings, hname, htype]

/-- Witness for `populate_placeholder_layout` at a concrete class shape. -/
theorem populate_placeholder_layout_witness :
    (∀ p ∈ nonBinaryProperties
        [⟨"CodeValue", .string, none⟩, ⟨"Model", .navigation, some "Id"⟩,
         ⟨"Origin", .point3d, none⟩, ⟨"GeometryStream", .binary, none⟩,
         ⟨"LastMod", .dateTime, none⟩, ⟨"Thumbnail", .binary, none⟩],
      ((p.propertyType = .navigation ∨ p.propertyType = .long) →
        p.name ≠ "CodeValue" → populateValuesFor p = [.lit "0x1"]) ∧
      (p.name = "CodeValue" → populateValuesFor p = [.lit "NULL"]) ∧
      (p.name ≠ "CodeValue" → p.propertyType ≠ .navigation →
        p.propertyType ≠ .long →
        populateValuesFor p = (propBindings p).map .param) ∧
      (populateColumnsFor p).length = (populateValuesFor p).length) ∧
    (∀ p ∈ binaryProperties
        [⟨"CodeValue", .string, none⟩, ⟨"Model", .navigation, some "Id"⟩,
         ⟨"Origin", .point3d, none⟩, ⟨"GeometryStream", .binary, none⟩,
         ⟨"LastMod", .dateTime, none⟩, ⟨"Thumbnail", .binary, none⟩],
      SqlExpr.param ("p_" ++ p.name) ∈ populateValues
        [⟨"CodeValue", .string, none⟩, ⟨"Model", .navigation, some "Id"⟩,
         ⟨"Origin", .point3d, none⟩, ⟨"GeometryStream", .binary, none⟩,
         ⟨"LastMod", .dateTime, none⟩, ⟨"Thumbnail", .binary, none⟩]) ∧
    (∀ p, p ∈ populateProperties
        [⟨"CodeValue", .string, none⟩, ⟨"Model", .navigation, some "Id"⟩,
         ⟨"Origin", .point3d, none⟩, ⟨"GeometryStream", .binary, none⟩,
         ⟨"LastMod", .dateTime, none⟩, ⟨"Thumbnail", .binary, none⟩] ↔
      (p ∈ nonBinaryProperties
        [⟨"CodeValue", .string, none⟩, ⟨"Model", .navigation, some "Id"⟩,
         ⟨"Origin", .point3d, none⟩, ⟨"GeometryStream", .binary, none⟩,
         ⟨"LastMod", .dateTime, none⟩, ⟨"Thumbnail", .binary, none⟩] ∧
        p.name ≠ "CodeValue" ∧
        p.propertyType ≠ .navigation ∧ p.propertyType ≠ .long)) ∧
    (populateColumns
        [⟨"CodeValue", .string, none⟩, ⟨"Model", .navigation, some "Id"⟩,
         ⟨"Origin", .point3d, none⟩, ⟨"GeometryStream", .binary, none⟩,
         ⟨"LastMod", .dateTime, none⟩, ⟨"Thumbnail", .binary, none⟩]).length =
      (populateValues
        [⟨"CodeValue", .string, none⟩, ⟨"Model", .navigation, some "Id"⟩,
         ⟨"Origin", .point3d, none⟩, ⟨"GeometryStream", .binary, none⟩,
         ⟨"LastMod", .dateTime, none⟩, ⟨"Thumbnail", .binary, none⟩]).length :=
  populate_placeholder_layout
    [⟨"CodeValue", .string, none⟩, ⟨"Model", .navigation, some "Id"⟩,
     ⟨"Origin", .point3d, none⟩, ⟨"GeometryStream", .binary, none⟩,
     ⟨"LastMod", .dateTime, none⟩, ⟨"Thumbnail", .binary, none⟩]
    (by decide)

/-! ## Codespec import

`rawEmulatedPolymorphicInsertTransform` (lines 726-759) streams
`SELECT s.Id, t.Id, s.Name, s.JsonProperties FROM source.bis_CodeSpec s
LEFT JOIN main.bis_CodeSpec t ON s.Name=t.Name` and, per source codespec:
when the name matched a target row, records `remapTables.codespec.remap`
with the existing target id and inserts nothing; otherwise executes
`INSERT INTO bis.CodeSpec VALUES(?,?)` binding name and JsonProperties —
the fresh row id comes from the target's instance id sequence, modelled as
a counter — and records the source to fresh pair.  The name match is
modelled against the current target table.  `IModelCloneContext.
importCodeSpec` (lines 400-419) implements the same reuse-by-name-or-insert
rule per codespec.
-/

structure CodeSpecRow where
  id : Nat
  name : String
  jsonProps : String
deriving DecidableEq, Repr

structure CodeSpecImportState where
  target : List CodeSpecRow
  table : CompactRemapTable
  nextId : Nat
deriving DecidableEq, Repr

/-- One iteration of the codespec import loop. -/
def codeSpecImportStep (st : CodeSpecImportState) (s : CodeSpecRow) :
    CodeSpecImportState :=
  match st.target.find? (fun t => t.name == s.name) with
  | some t => { st with table := st.table.remap s.id t.id }
  | none =>
    { target := st.target ++ [⟨st.nextId, s.name, s.jsonProps⟩]
      table := st.table.remap s.id st.nextId
      nextId := st.nextId + 1 }

/-- The whole codespec import loop. -/
def codeSpecImport (st : CodeSpecImportState) (srcs : List CodeSpecRow) :
    CodeSpecImportState :=
  srcs.foldl codeSpecImportStep st

theorem codeSpecImport_table_preserve (srcs : List CodeSpecRow) :
    ∀ (st : CodeSpecImportState) (x w : Nat), st.table.get x = some w →
      (codeSpecImport st srcs).table.get x = some w := by
  induction srcs with
  | nil => intro st x w h; simpa [codeSpecImport] using h
  | cons s rest ih =>
    intro st x w h
    show (codeSpecImport (codeSpecImportStep st s) rest).table.get x = some w
    apply ih
    unfold codeSpecImportStep
    cases hf : st.target.find? (fun t => t.name == s.name) <;>
      exact CompactRemapTable.get_remap_preserve _ _ _ _ _ h

theorem codeSpecImport_target_extends (srcs : List CodeSpecRow) :
    ∀ st, ∃ ins, (codeSpecImport st srcs).target = st.target ++ ins ∧
      ∀ r ∈ ins, r.name ∈ srcs.map (fun s => s.name) := by
  induction srcs with
  | nil => intro st; exact ⟨[], by simp [codeSpecImport], by simp⟩
  | cons s rest ih =>
    intro st
    obtain ⟨ins, htarget, hnames⟩ := ih (codeSpecImportStep st s)
    have hstep : codeSpecImport st (s :: rest)
        = codeSpecImport (codeSpecImportStep st s) rest := rfl
    cases hf : st.target.find? (fun t => t.name == s.name) with
    | some t =>
      refine ⟨ins, ?_, ?_⟩
      · rw [hstep, htarget]
        simp [codeSpecImportStep, hf]
      · intro r hr
        exact List.mem_cons_of_mem _ (hnames r hr)
    | none =>
      refine ⟨⟨st.nextId, s.name, s.jsonProps⟩ :: ins, ?_, ?_⟩
      · rw [hstep, htarget]
        simp [codeSpecImportStep, hf]
      · intro r hr
        rcases List.mem_cons.mp hr with rfl | hr'
        · exact List.mem_cons_self _ _
        · exact List.mem_cons_of_mem _ (hnames r hr')

theorem codeSpecImport_general (srcs : List CodeSpecRow) :
    ∀ (st : CodeSpecImportState) (origTarget ins : List CodeSpecRow),
      st.target = origTarget ++ ins →
      (srcs.map (fun s => s.name)).Nodup →
      (srcs.map (fun s => s.id)).Nodup →
      (∀ s ∈ srcs, ¬ st.table.covered s.id = true) →
      (∀ s ∈ srcs, ∀ r ∈ ins, r.name ≠ s.name) →
      ∀ s ∈ srcs,
        (∀ t, origTarget.find? (fun t' => t'.name == s.name) = some t →
          (codeSpecImport st srcs).table.get s.id = some t.id ∧
          (codeSpecImport st srcs).target.filter (fun r => r.name == s.name)
            = origTarget.filter (fun r => r.name == s.name)) ∧
        (origTarget.find? (fun t' => t'.name == s.name) = none →
          ∃ tid, (codeSpecImport st srcs).table.get s.id = some tid ∧
            (⟨tid, s.name, s.jsonProps⟩ : CodeSpecRow) ∈ (codeSpecImport st srcs).target) := by
  induction srcs with
  | nil =>
    intro st o i _ _ _ _ _ s hs
    exact absurd hs (List.not_mem_nil _)
  | cons s₀ rest ih =>
    intro st origTarget ins htgt hnames hids hcov hins s hs
    rw [List.map_cons] at hnames hids
    have hnames1 := (List.nodup_cons.mp hnames).1
    have hnames2 := (List.nodup_cons.mp hnames).2
    have hids1 := (List.nodup_cons.mp hids).1
    have hids2 := (List.nodup_cons.mp hids).2
    have hinsfind : ins.find? (fun t' => t'.name == s₀.name) = none := by
      apply List.find?_eq_none.mpr
      intro r hr
      simpa using hins s₀ (List.mem_cons_self _ _) r hr
    have hsplit : st.target.find? (fun t' => t'.name == s₀.name)
        = origTarget.find? (fun t' => t'.name == s₀.name) := by
      rw [htgt, List.find?_append, hinsfind]
      cases origTarget.find? (fun t' => t'.name == s₀.name) <;> rfl
    have hstep : codeSpecImport st (s₀ :: rest)
        = codeSpecImport (codeSpecImportStep st s₀) rest := rfl
    -- facts about the stepped state, by cases on the name lookup
    rcases List.mem_cons.mp hs with rfl | hs'
    · -- the processed codespec itself
      constructor
      · intro t ht
        have hfind : st.target.find? (fun t' => t'.name == s.name) = some t := by
          rw [hsplit]; exact ht
        have hget1 : (codeSpecImportStep st s).table.get s.id = some t.id := by
          simp only [codeSpecImportStep, hfind]
          exact CompactRemapTable.get_remap_self _ _ _ (hcov s (List.mem_cons_self _ _))
        have hget : (codeSpecImport st (s :: rest)).table.get s.id = some t.id := by
          rw [hstep]
          exact codeSpecImport_table_preserve rest _ _ _ hget1
        refine ⟨hget, ?_⟩
        -- no row named s.name is ever added
        obtain ⟨ins₂, htarget2, hnames₂⟩ :=
          codeSpecImport_target_extends rest (codeSpecImportStep st s)
        have hsteptgt : (codeSpecImportStep st s).target = st.target := by
          simp [codeSpecImportStep, hfind]
        rw [hstep, htarget2, hsteptgt, htgt, List.filter_append, List.filter_append]
        have hinsfilter : ins.filter (fun r => r.name == s.name) = [] := by
          apply List.filter_eq_nil_iff.mpr
          intro r hr
          simpa using hins s (List.mem_cons_self _ _) r hr
        have hins2filter : ins₂.filter (fun r => r.name == s.name) = [] := by
          apply List.filter_eq_nil_iff.mpr
          intro r hr
          have hrname := hnames₂ r hr
          simp only [List.mem_map] at hrname
          obtain ⟨s', hs'mem, hs'name⟩ := hrname
          have : s'.name ≠ s.name := by
            intro heq
            exact hnames1 (heq ▸ List.mem_map_of_mem (fun x => x.name) hs'mem)
          simpa [← hs'name] using this
        rw [hinsfilter, hins2filter]
        simp
      · intro ht
        -- inserted fresh: the lookup found nothing
        have hfind : st.target.find? (fun t' => t'.name == s.name) = none := by
          rw [hsplit]; exact ht
        have hget1 : (codeSpecImportStep st s).table.get s.id = some st.nextId := by
          simp only [codeSpecImportStep, hfind]
          exact CompactRemapTable.get_remap_self _ _ _ (hcov s (List.mem_cons_self _ _))
        refine ⟨st.nextId, ?_, ?_⟩
        · rw [hstep]
          exact codeSpecImport_table_preserve rest _ _ _ hget1
        · obtain ⟨ins₂, htarget2, _⟩ :=
            codeSpecImport_target_extends rest (codeSpecImportStep st s)
          rw [hstep, htarget2]
          apply List.mem_append_left
          simp [codeSpecImportStep, hfind]
    · -- a later codespec: apply the induction hypothesis to the stepped state
      have hcovstep : ∀ s' ∈ rest, ¬ (codeSpecImportStep st s₀).table.covered s'.id = true := by
        intro s' h' hc
        have htab : (codeSpecImportStep st s₀).table = st.table.remap s₀.id
            (match st.target.find? (fun t => t.name == s₀.name) with
              | some t => t.id
              | none => st.nextId) := by
          unfold codeSpecImportStep
          cases hf : st.target.find? (fun t => t.name == s₀.name) <;> simp [hf]
        rw [htab] at hc
        rcases (CompactRemapTable.covered_remap _ _ _ _).mp hc with hold | heq
        · exact hcov s' (List.mem_cons_of_mem _ h') hold
        · exact hids1 (heq ▸ List.mem_map_of_mem (fun x => x.id) h')
      cases hf : st.target.find? (fun t => t.name == s₀.name) with
      | some t =>
        have htgt' : (codeSpecImportStep st s₀).target = origTarget ++ ins := by
          rw [← htgt]; simp [codeSpecImportStep, hf]
        exact ih (codeSpecImportStep st s₀) origTarget ins htgt' hnames2 hids2
          hcovstep (fun s'' h'' r hr => hins s'' (List.mem_cons_of_mem _ h'') r hr) s hs'
      | none =>
        have htgt' : (codeSpecImportStep st s₀).target
            = origTarget ++ (ins ++ [⟨st.nextId, s₀.name, s₀.jsonProps⟩]) := by
          unfold codeSpecImportStep
          rw [hf]
          simp [htgt]
        have hins' : ∀ s'' ∈ rest, ∀ r ∈ ins ++ [⟨st.nextId, s₀.name, s₀.jsonProps⟩],
            r.name ≠ s''.name := by
          intro s'' h'' r hr
          rcases List.mem_append.mp hr with hr' | hr'
          · exact hins s'' (List.mem_cons_of_mem _ h'') r hr'
          · rcases List.mem_singleton.mp hr' with rfl
            intro heq
            exact hnames1 (heq ▸ List.mem_map_of_mem (fun x => x.name) h'')
        exact ih (codeSpecImportStep st s₀) origTarget _ htgt' hnames2 hids2
          hcovstep hins' s hs'

/-- C6: for every codespec of the source database, the codespec import
loop reuses a target codespec of the same name when one exists — recording
`sourceId → existing targetId` in the codespec remap table and inserting no
new row of that name — and otherwise inserts a fresh row and records the
resulting pair.  Hypotheses: real codespec streams carry distinct names,
distinct valid (nonzero) ids; the codespec remap table starts from its base
(`0 → 0`) state. -/
theorem codeSpecImport_reuse_or_insert
    (srcs initialTarget : List CodeSpecRow) (seqStart : Nat)
    (hnames : (srcs.map (fun s => s.name)).Nodup)
    (hids : (srcs.map (fun s => s.id)).Nodup)
    (hnz : ∀ s ∈ srcs, s.id ≠ 0) :
    ∀ s ∈ srcs,
      (∀ t, initialTarget.find? (fun t' => t'.name == s.name) = some t →
        (codeSpecImport ⟨initialTarget, baseRemapTable, seqStart⟩ srcs).table.get s.id
            = some t.id ∧
        (codeSpecImport ⟨initialTarget, baseRemapTable, seqStart⟩ srcs).target.filter
            (fun r => r.name == s.name)
          = initialTarget.filter (fun r => r.name == s.name)) ∧
      (initialTarget.find? (fun t' => t'.name == s.name) = none →
        ∃ tid,
          (codeSpecImport ⟨initialTarget, baseRemapTable, seqStart⟩ srcs).table.get s.id
            = some tid ∧
          (⟨tid, s.name, s.jsonProps⟩ : CodeSpecRow)
            ∈ (codeSpecImport ⟨initialTarget, baseRemapTable, seqStart⟩ srcs).target) := by
  have hbase : baseRemapTable = ⟨[⟨0, 0, 1⟩]⟩ := by decide
  have hcov : ∀ s ∈ srcs,
      ¬ (⟨initialTarget, baseRemapTable, seqStart⟩ : CodeSpecImportState).table.covered
          s.id = true := by
    intro s hsm hc
    have hc' : baseRemapTable.covered s.id = true := hc
    rw [hbase] at hc'
    simp only [CompactRemapTable.covered, List.any_eq_true, List.mem_singleton,
      exists_eq_left, RemapRun.contains, decide_eq_true_eq] at hc'
    exact hnz s hsm (by omega)
  exact codeSpecImport_general srcs ⟨initialTarget, baseRemapTable, seqStart⟩
    initialTarget [] (by simp) hnames hids hcov (by simp)

/-- Witness for `codeSpecImport_reuse_or_insert`: source codespecs `X`
(id `0x100`, name present in the target as id `0x200`) and `Y` (id `0x101`,
absent from the target). -/
theorem codeSpecImport_reuse_or_insert_witness :
    ((codeSpecImport ⟨[⟨0x200, "X", "xt"⟩], baseRemapTable, 0x300⟩
        [⟨0x100, "X", "xs"⟩, ⟨0x101, "Y", "ys"⟩]).table.get 0x100 = some 0x200 ∧
      (codeSpecImport ⟨[⟨0x200, "X", "xt"⟩], baseRemapTable, 0x300⟩
        [⟨0x100, "X", "xs"⟩, ⟨0x101, "Y", "ys"⟩]).target.filter
          (fun r => r.name == "X")
        = ([⟨0x200, "X", "xt"⟩] : List CodeSpecRow).filter (fun r => r.name == "X")) ∧
    (∃ tid,
      (codeSpecImport ⟨[⟨0x200, "X", "xt"⟩], baseRemapTable, 0x300⟩
        [⟨0x100, "X", "xs"⟩, ⟨0x101, "Y", "ys"⟩]).table.get 0x101 = some tid ∧
      (⟨tid, "Y", "ys"⟩ : CodeSpecRow)
        ∈ (codeSpecImport ⟨[⟨0x200, "X", "xt"⟩], baseRemapTable, 0x300⟩
            [⟨0x100, "X", "xs"⟩, ⟨0x101, "Y", "ys"⟩]).target) :=
  ⟨(codeSpecImport_reuse_or_insert
      [⟨0x100, "X", "xs"⟩, ⟨0x101, "Y", "ys"⟩] [⟨0x200, "X", "xt"⟩] 0x300
      (by decide) (by decide) (by decide)
      ⟨0x100, "X", "xs"⟩ (by decide)).1 ⟨0x200, "X", "xt"⟩ (by decide),
    (codeSpecImport_reuse_or_insert
      [⟨0x100, "X", "xs"⟩, ⟨0x101, "Y", "ys"⟩] [⟨0x200, "X", "xt"⟩] 0x300
      (by decide) (by decide) (by decide)
      ⟨0x101, "Y", "ys"⟩ (by decide)).2 (by decide)⟩
